import Mathlib

/-!
Verification development for the ClimateScope repository.

Each section embeds one part of the repository's Python source as executable
Lean definitions over exact rational arithmetic (`ℚ`); floating-point NaN is
modelled as `Option.none` where the source can produce or propagate NaN.
Irrational helper functions of the source (fractional powers, `exp`, `sqrt`)
are passed in as explicit function parameters, since the claims under study
concern control flow and exact values, never the transcendental numerics.
-/

namespace ClimateScope

/-! ### Embedding of `src/src/data/preprocess.py`

`impute_stationwise` sorts by `(station_id, date)`, linearly interpolates
`temperature` and `humidity` per station with `limit_direction='both'`, and
drops rows still missing either metric.  `clean_outliers` filters
`temperature` to the open interval `(-100, 60)` and `humidity` to `[0, 100]`.
Pandas comparisons with NaN are false, so rows with missing values fail the
outlier filters; `x.interpolate(limit_direction='both')` fills an interior gap
by positional linear interpolation between the nearest non-null neighbours,
and fills leading (resp. trailing) gaps with the first (resp. last) non-null
value. -/

structure PRecord where
  station_id : String
  date : ℤ
  temperature : Option ℚ
  humidity : Option ℚ
deriving DecidableEq

/-- Index and value of the nearest non-null entry strictly before position `i`. -/
def findPrevSome (s : List (Option ℚ)) (i : ℕ) : Option (ℕ × ℚ) :=
  (((s.take i).enum).filterMap (fun p => p.2.map (fun v => (p.1, v)))).getLast?

/-- Index and value of the nearest non-null entry strictly after position `i`. -/
def findNextSome (s : List (Option ℚ)) (i : ℕ) : Option (ℕ × ℚ) :=
  ((s.enum.drop (i + 1)).filterMap (fun p => p.2.map (fun v => (p.1, v)))).head?

/-- Embedding of `Series.interpolate(limit_direction='both')` on one station's column. -/
def interpBoth (s : List (Option ℚ)) : List (Option ℚ) :=
  s.mapIdx (fun i v =>
    match v with
    | some a => some a
    | none =>
      match findPrevSome s i, findNextSome s i with
      | some (j, a), some (k, b) => some (a + (b - a) * (((i : ℚ) - j) / ((k : ℚ) - j)))
      | none, some (_, b) => some b
      | some (_, a), none => some a
      | none, none => none)

/-- Lexicographic key order used by `df.sort_values(['station_id', 'date'])`. -/
def pKeyLe (a b : PRecord) : Prop :=
  a.station_id < b.station_id ∨ (a.station_id = b.station_id ∧ a.date ≤ b.date)

instance : DecidableRel pKeyLe := fun a b => by
  unfold pKeyLe; infer_instance

/-- Function `impute_stationwise`: sort by `(station_id, date)`, interpolate the two
metric columns per station group, then `dropna` on them. -/
def impute_stationwise (df : List PRecord) : List PRecord :=
  let sorted := List.insertionSort pKeyLe df
  let stations := (sorted.map (·.station_id)).dedup
  let filled := (stations.map (fun st =>
    let g := sorted.filter (fun r => r.station_id == st)
    let ts := interpBoth (g.map (·.temperature))
    let hs := interpBoth (g.map (·.humidity))
    (g.zip (ts.zip hs)).map (fun p =>
      { p.1 with temperature := p.2.1, humidity := p.2.2 }))).flatten
  filled.filter (fun r => r.temperature.isSome && r.humidity.isSome)

/-- Function `clean_outliers`: keep `-100 < temperature < 60`, then `0 ≤ humidity ≤ 100`;
a missing value fails every comparison, as NaN does in pandas. -/
def clean_outliers (df : List PRecord) : List PRecord :=
  (df.filter (fun r =>
      match r.temperature with
      | some t => decide (-100 < t) && decide (t < 60)
      | none => false)).filter
    (fun r =>
      match r.humidity with
      | some h => decide (0 ≤ h) && decide (h ≤ 100)
      | none => false)

/-- A record violating the spec's stated `[-90, 60]` temperature bound that the
code's `(-100, 60)` filter retains. -/
def coldOutlierRecord : PRecord :=
  { station_id := "A", date := 0, temperature := some (-95), humidity := some 50 }

/-! ### Embedding of `calculate_heat_index` / `calculate_wind_chill` from `src/app.py`

`calculate_wind_chill` first overwrites `temp_c` with
`np.where(temp_c <= 10, temp_c, np.nan)` and only then falls back to the
(now possibly NaN) `temp_c` when the validity condition fails.  NaN is
`none`; the fractional power `wind_ms ** 0.16` is an explicit function
parameter `pow016`, as its value never matters for the claims below.  A NaN
comparison (`temp_c <= 10` on the masked value) is false, as in numpy. -/

/-- Function `calculate_heat_index` from `src/app.py` (Rothfusz polynomial). -/
def calculate_heat_index (temp_c humidity : ℚ) : ℚ :=
  let temp_f := temp_c * 9 / 5 + 32
  let rh := humidity
  let hi := -42.379 + 2.04901523 * temp_f + 10.14333127 * rh
      - 0.22475541 * temp_f * rh - 6.83783e-3 * temp_f ^ 2
      - 5.481717e-2 * rh ^ 2 + 1.22874e-3 * temp_f ^ 2 * rh
      + 8.5282e-4 * temp_f * rh ^ 2 - 1.99e-6 * temp_f ^ 2 * rh ^ 2
  (hi - 32) * 5 / 9

/-- Function `calculate_wind_chill` from `src/app.py`.  Returns `none` exactly where the
numpy code yields NaN. -/
def calculate_wind_chill (pow016 : ℚ → ℚ) (temp_c wind_kph : ℚ) : Option ℚ :=
  let t : Option ℚ := if temp_c ≤ 10 then some temp_c else none
  let wind_ms := wind_kph / 3.6
  let wc : Option ℚ := t.map (fun tc =>
    13.12 + 0.6215 * tc - 11.37 * pow016 wind_ms + 0.3965 * tc * pow016 wind_ms)
  let cond : Bool := decide (4.8 < wind_kph) &&
    (match t with | some tc => decide (tc ≤ 10) | none => false)
  if cond then wc else t

/-! ### Rolling averages: `apply_moving_average` (`src/app.py`) and the 7-day
moving average of `src/Milestone_4.py`

Both are `groupby(...).transform(lambda s: s.rolling(window=7,
min_periods=m).mean())` applied to each partition's timestamp-ordered value
series; `apply_moving_average` uses `min_periods=1` and `Milestone_4.py` uses
`min_periods=3`.  `rollingMean` embeds the per-partition lambda: entry `i`
averages the trailing `window` values ending at `i`, and is NaN (`none`) when
fewer than `minPeriods` values are available. -/

def rollingMean (window minPeriods : ℕ) (xs : List ℚ) : List (Option ℚ) :=
  (List.range xs.length).map (fun i =>
    let win := (xs.take (i + 1)).drop (i + 1 - window)
    if minPeriods ≤ win.length then some (win.sum / (win.length : ℚ)) else none)

/-- The transform lambda of `apply_moving_average` (`window=7, min_periods=1`)
on one `(country, location_name)` partition. -/
def apply_moving_average_partition (xs : List ℚ) : List (Option ℚ) :=
  rollingMean 7 1 xs

/-- The transform lambda of `Milestone_4.py`'s `rolling_mean`
(`window=7, min_periods=3`) on one country partition. -/
def milestone_rolling_mean (xs : List ℚ) : List (Option ℚ) :=
  rollingMean 7 3 xs

/-! ### Missing-value handling: `handle_missing_values` (`src/app.py`) and the
cleaning loop of `src/Dashboard.py`

`handle_missing_values` fills each numeric column's nulls with the column
median and returns only the dataframe — nothing else.  `Dashboard.py`'s loop
appends one entry to `cleaning_log` for each column it fills (value `0` for
air-quality columns, the median otherwise).  A log entry is modelled as the
data the formatted string records: column name, number filled, fill value. -/

/-- Recorded remediation action (one `cleaning_log` entry of `Dashboard.py`). -/
structure CleaningAction where
  column : String
  filledCount : ℕ
  fillValue : ℚ
deriving DecidableEq

/-- Embedding of `Series.median()`: sorted middle element, or mean of the two middle
elements; `none` (NaN) for an empty series. -/
def pandasMedian (xs : List ℚ) : Option ℚ :=
  let s := List.insertionSort (fun a b : ℚ => a ≤ b) xs
  let n := s.length
  if n = 0 then none
  else if n % 2 = 1 then some (s.getD (n / 2) 0)
  else some ((s.getD (n / 2 - 1) 0 + s.getD (n / 2) 0) / 2)

/-- The numeric branch of `handle_missing_values` (`src/app.py` lines 92-95) on
one column: `fillna(median)` when the column has nulls.  `fillna` with a NaN
median (all-null column) changes nothing. -/
def handle_missing_values_numeric (col : List (Option ℚ)) : List (Option ℚ) :=
  if col.any (·.isNone) then
    match pandasMedian (col.filterMap id) with
    | some m => col.map (fun v => some (v.getD m))
    | none => col
  else col

/-- Since `handle_missing_values` returns only the filled dataframe, the source
records no remediation action of any kind alongside it. -/
def handle_missing_values_actions (_col : List (Option ℚ)) : List CleaningAction :=
  []

/-- The numeric branch of `Dashboard.py`'s cleaning loop on one column.
`isAirQuality` stands for the source's `'air_quality' in col` test. -/
def dashboard_clean_numeric (name : String) (isAirQuality : Bool)
    (col : List (Option ℚ)) : List (Option ℚ) × List CleaningAction :=
  if col.any (·.isNone) then
    let missingCount := col.countP (·.isNone)
    if isAirQuality then
      (col.map (fun v => some (v.getD 0)), [⟨name, missingCount, 0⟩])
    else
      match pandasMedian (col.filterMap id) with
      | some m => (col.map (fun v => some (v.getD m)), [⟨name, missingCount, m⟩])
      | none => (col, [⟨name, missingCount, 0⟩])
  else (col, [])

/-! ### Percentile thresholds and extreme-event tagging
(`src/MileStone_4.py` `get_extreme_type`, thresholds configurable via the
`WeatherDashboard.py` percentile slider, minimum 80)

`Series.quantile(q)` uses linear interpolation on the sorted values; the
temperature branch of `get_extreme_type` appends `"Heatwave"` when the value
is `>=` the upper quantile, else `"Cold Wave"` when `<=` the lower quantile.
The two quantile levels (`0.95`/`0.05` in `MileStone_4.py`, slider-selected
between 80 and 99 in `WeatherDashboard.py`) are parameters here. -/

/-- Embedding of `Series.quantile(q)` with the default linear interpolation. -/
def pandasQuantile (q : ℚ) (xs : List ℚ) : ℚ :=
  let s := List.insertionSort (fun a b : ℚ => a ≤ b) xs
  let n := s.length
  let h := q * ((n : ℚ) - 1)
  let lo := h.floor.toNat
  let sl := s.getD lo 0
  sl + (h - (lo : ℚ)) * (s.getD (lo + 1) sl - sl)

/-- Temperature branch of `get_extreme_type`, with the quantile levels as
parameters. -/
def get_extreme_type_temperature (qHigh qLow : ℚ) (temps : List ℚ) (t : ℚ) :
    List String :=
  if pandasQuantile qHigh temps ≤ t then ["Heatwave"]
  else if t ≤ pandasQuantile qLow temps then ["Cold Wave"]
  else []

/-! ### Seasonal aggregation
(`src/Infrastructure_Risk_Management_APP.py` Seasonal branch and the
`season_map` dictionary of `src/new.py`)

The Seasonal branch maps month to season through the fixed dictionary, then
`groupby(["country", "year", "season"]).mean()` over the metric.  The group's
record count is carried alongside the mean as the bucket's sample count. -/

/-- The `season_map` dictionary; months outside 1..12 are absent (`.map` gives
NaN). -/
def season_map : ℕ → Option String
  | 12 | 1 | 2 => some "Winter"
  | 3 | 4 | 5 => some "Spring"
  | 6 | 7 | 8 => some "Summer"
  | 9 | 10 | 11 => some "Autumn"
  | _ => none

structure IRecord where
  country : String
  year : ℤ
  month : ℕ
  temp : ℚ
deriving DecidableEq

/-- Seasonal aggregation: group by `(country, year, season)` and take the mean
of the metric; each output bucket also carries its group size. -/
def seasonalAggregate (df : List IRecord) :
    List (String × ℤ × Option String × ℚ × ℕ) :=
  let key := fun (r : IRecord) => (r.country, r.year, season_map r.month)
  let keys := (df.map key).dedup
  keys.map (fun k =>
    let g := df.filter (fun r => key r == k)
    (k.1, k.2.1, k.2.2, (g.map (·.temp)).sum / (g.length : ℚ), g.length))

/-! ### Embedding of `SimpleKDE` from `src/app.py`

The class samples `data`, sets `bandwidth = 1.06 * np.std(data) * n**(-1/5)`
and, on call with grid `x`: returns `x` if the grid is empty, zeros if the
data is empty, the uniform density `1 / (x.max() - x.min() + 1e-10)` when
`bandwidth <= 0 or np.std(data) == 0`, and otherwise the Gaussian kernel sum
normalised by `n * bandwidth * sqrt(2π)`.  `np.std` is the square root of the
population variance; the square root, `n**(-1/5)`, `sqrt(2π)` and the kernel
exponential enter as parameters `sq`, `npow`, `sqrt2pi`, `expK`. -/

/-- Population variance, the square of `np.std`. -/
def varianceQ (data : List ℚ) : ℚ :=
  let n : ℚ := data.length
  let mu := data.sum / n
  (data.map (fun x => (x - mu) ^ 2)).sum / n

def maxQ : List ℚ → ℚ
  | [] => 0
  | x :: xs => xs.foldl max x

def minQ : List ℚ → ℚ
  | [] => 0
  | x :: xs => xs.foldl min x

/-- Silverman bandwidth `1.06 * np.std(data) * n ** (-1/5)`. -/
def kdeBandwidth (sq : ℚ → ℚ) (npow : ℚ) (data : List ℚ) : ℚ :=
  1.06 * sq (varianceQ data) * npow

/-- The `__call__` method of the `SimpleKDE` inner class. -/
def kdeEval (sq : ℚ → ℚ) (npow sqrt2pi : ℚ) (expK : ℚ → ℚ)
    (data xs : List ℚ) : List ℚ :=
  if xs.isEmpty then xs
  else if data.isEmpty then xs.map (fun _ => 0)
  else if kdeBandwidth sq npow data ≤ 0 ∨ sq (varianceQ data) = 0 then
    xs.map (fun _ => 1 / (maxQ xs - minQ xs + 1 / 10000000000))
  else
    let bw := kdeBandwidth sq npow data
    xs.map (fun x =>
      ((data.map (fun d => expK (-(1 / 2) * ((x - d) / bw) ^ 2))).sum) /
        ((data.length : ℚ) * bw * sqrt2pi))

/-! ### Embedding of the derived-metric block of `src/new.py` `load_data`
(lines 343-352) and `add_derived_metrics` of `src/app.py`

`new.py` computes `heat_index = T + 0.1 * humidity` and
`wind_chill = T - 0.1 * wind_kph`, sorts by `(country, last_updated)` and
assigns `temp_7day_avg` as the per-country `rolling(7, min_periods=1).mean()`
of temperature.  `add_derived_metrics` (`src/app.py`) overwrites the
`heat_index` / `wind_chill` columns from the base columns.  `sort_values` is
modelled by the stable `List.insertionSort`.  An absent derived column is
`none` in the corresponding `Option` field. -/

structure ARow where
  temperature_celsius : ℚ
  humidity : ℚ
  wind_kph : ℚ
  heat_index : Option ℚ
  wind_chill : Option (Option ℚ)
deriving DecidableEq

/-- Function `add_derived_metrics` from `src/app.py`: recompute both derived columns
from the base columns and overwrite them. -/
def add_derived_metrics (pow016 : ℚ → ℚ) (df : List ARow) : List ARow :=
  df.map (fun r =>
    { r with
      heat_index := some (calculate_heat_index r.temperature_celsius r.humidity),
      wind_chill := some (calculate_wind_chill pow016 r.temperature_celsius r.wind_kph) })

structure NRow where
  country : String
  last_updated : ℤ
  temperature_celsius : ℚ
  humidity : ℚ
  wind_kph : ℚ
  heat_index : Option ℚ
  wind_chill : Option ℚ
  temp_7day_avg : Option ℚ
deriving DecidableEq, Inhabited

/-- The two scalar derived fields of `new.py`. -/
def newEnrich (r : NRow) : NRow :=
  { r with
    heat_index := some (r.temperature_celsius + 0.1 * r.humidity),
    wind_chill := some (r.temperature_celsius - 0.1 * r.wind_kph) }

/-- Lexicographic key order of `df.sort_values(["country", "last_updated"])`. -/
def nKeyLe (a b : NRow) : Prop :=
  a.country < b.country ∨ (a.country = b.country ∧ a.last_updated ≤ b.last_updated)

instance : DecidableRel nKeyLe := fun a b => by
  unfold nKeyLe; infer_instance

instance : IsTotal NRow nKeyLe where
  total a b := by
    unfold nKeyLe
    rcases lt_trichotomy a.country b.country with h | h | h
    · exact Or.inl (Or.inl h)
    · rcases le_total a.last_updated b.last_updated with h2 | h2
      · exact Or.inl (Or.inr ⟨h, h2⟩)
      · exact Or.inr (Or.inr ⟨h.symm, h2⟩)
    · exact Or.inr (Or.inl h)

instance : IsTrans NRow nKeyLe where
  trans a b c hab hbc := by
    unfold nKeyLe at *
    rcases hab with h1 | ⟨h1, h1'⟩
    · rcases hbc with h2 | ⟨h2, _⟩
      · exact Or.inl (h1.trans h2)
      · exact Or.inl (h2 ▸ h1)
    · rcases hbc with h2 | ⟨h2, h2'⟩
      · exact Or.inl (h1 ▸ h2)
      · exact Or.inr ⟨h1.trans h2, h1'.trans h2'⟩

/-- The trailing window of the per-country rolling mean for row `i`:
temperatures of the last at most 7 same-country rows among the first `i + 1`
rows. -/
def maWindow (l : List NRow) (i : ℕ) : List ℚ :=
  let r := l.getD i default
  let g := ((l.take (i + 1)).filter (fun s => s.country == r.country)).map
    (·.temperature_celsius)
  g.drop (g.length - 7)

/-- Row `i` with its `temp_7day_avg` assigned (`min_periods=1`, so the window
is never empty for a valid index and the value is never NaN). -/
def maRow (l : List NRow) (i : ℕ) : NRow :=
  let w := maWindow l i
  { l.getD i default with temp_7day_avg := some (w.sum / (w.length : ℚ)) }

/-- Assignment of the `temp_7day_avg` column over the whole (sorted) frame. -/
def assignMA (l : List NRow) : List NRow :=
  (List.range l.length).map (maRow l)

/-- The derived-metric block of `new.py` `load_data`: scalar derived fields,
sort by `(country, last_updated)`, per-country 7-day rolling mean. -/
def newDerive (df : List NRow) : List NRow :=
  assignMA (List.insertionSort nKeyLe (df.map newEnrich))

/-! ### Embedding of the dedup step of `src/scrpits/data_cleaning.py`
`clean_dataset`

The script sorts by `["location_name", "last_updated"]` and later runs
`drop_duplicates(subset=["location_name", "last_updated"], keep="last")`,
which keeps, in order, each row with no later row of the same key. -/

structure SRecord where
  location_name : String
  last_updated : ℤ
  temperature : ℚ
deriving DecidableEq

/-- The dedup key `["location_name", "last_updated"]`. -/
def sKey (r : SRecord) : String × ℤ :=
  (r.location_name, r.last_updated)

/-- Lexicographic key order of `df.sort_values(["location_name", "last_updated"])`. -/
def sKeyLe (a b : SRecord) : Prop :=
  a.location_name < b.location_name ∨
    (a.location_name = b.location_name ∧ a.last_updated ≤ b.last_updated)

instance : DecidableRel sKeyLe := fun a b => by
  unfold sKeyLe; infer_instance

/-- Embedding of `drop_duplicates(subset=key, keep="last")`: a row is kept exactly when no
later row shares its key. -/
def drop_duplicates_keep_last : List SRecord → List SRecord
  | [] => []
  | x :: xs =>
    if xs.any (fun y => sKey y == sKey x) then drop_duplicates_keep_last xs
    else x :: drop_duplicates_keep_last xs

/-- The sort-then-dedup portion of `clean_dataset`. -/
def clean_dataset_dedup (l : List SRecord) : List SRecord :=
  drop_duplicates_keep_last (List.insertionSort sKeyLe l)

/-! ## Theorems -/

/-- C1, counterexample: a record with temperature `-95` — outside the claimed
`[-90, 60]` physical-plausibility bound — passes `clean_outliers`, because the
code's filter is the open interval `(-100, 60)`. -/
theorem clean_outliers_keeps_minus95 :
    coldOutlierRecord ∈ clean_outliers [coldOutlierRecord] ∧
    coldOutlierRecord.temperature = some (-95) ∧ ¬(-90 ≤ (-95 : ℚ)) := by
  refine ⟨by decide, rfl, by norm_num⟩

/-- C1, amended: every record surviving `clean_outliers` has a present
temperature in the open interval `(-100, 60)` and a present humidity in
`[0, 100]`; records violating these code bounds (or with a missing value) are
excluded. -/
theorem clean_outliers_bounds (df : List PRecord) (r : PRecord)
    (hr : r ∈ clean_outliers df) :
    ∃ t h, r.temperature = some t ∧ r.humidity = some h ∧
      -100 < t ∧ t < 60 ∧ 0 ≤ h ∧ h ≤ 100 := by
  unfold clean_outliers at hr
  have h2 := List.of_mem_filter hr
  have h1 := List.of_mem_filter (List.mem_of_mem_filter hr)
  rcases ht : r.temperature with _ | t
  · rw [ht] at h1; simp at h1
  · rcases hh : r.humidity with _ | h
    · rw [hh] at h2; simp at h2
    · rw [ht] at h1; rw [hh] at h2
      simp only [Bool.and_eq_true, decide_eq_true_eq] at h1 h2
      exact ⟨t, h, rfl, rfl, h1.1, h1.2, h2.1, h2.2⟩

/-- C1 witness: the theorem applied to a concrete in-range record. -/
theorem clean_outliers_bounds_witness :
    ∃ t h,
      (⟨"A", 0, some 20, some 50⟩ : PRecord).temperature = some t ∧
      (⟨"A", 0, some 20, some 50⟩ : PRecord).humidity = some h ∧
      -100 < t ∧ t < 60 ∧ 0 ≤ h ∧ h ≤ 100 :=
  clean_outliers_bounds [⟨"A", 0, some 20, some 50⟩] ⟨"A", 0, some 20, some 50⟩
    (by decide)

/-- C2: `calculate_wind_chill` at temperature `20 > 10` returns NaN (`none`)
for every value of the fractional power, not the unmodified temperature the
claim (and the function's own fallback intent) prescribes: the fallback reads
the already-NaN-masked temperature. -/
theorem calculate_wind_chill_nan_above_ten (pow016 : ℚ → ℚ) :
    calculate_wind_chill pow016 20 10 = none := by
  unfold calculate_wind_chill
  norm_num

/-- C3, counterexample: `Milestone_4.py`'s 7-day moving average uses
`min_periods=3`, so on the single-observation partition `[10]` the rolling
mean at the first observation is NaN, not the observation's own value. -/
theorem milestone_rolling_mean_first_is_nan :
    milestone_rolling_mean [10] = [none] ∧ (none : Option ℚ) ≠ some 10 := by
  exact ⟨rfl, by simp⟩

/-- C3, amended: for `apply_moving_average` (`min_periods=1`) the rolling
average at the first observation of a partition equals that observation's own
value; `Milestone_4.py`'s variant (`min_periods=3`) instead yields NaN until
three observations exist. -/
theorem apply_moving_average_first_value (x : ℚ) (xs : List ℚ) :
    (apply_moving_average_partition (x :: xs)).head? = some (some x) := by
  unfold apply_moving_average_partition rollingMean
  simp [List.range_succ_eq_map]

/-- C4, counterexample: `handle_missing_values` (`src/app.py`) replaces the
missing value of `[1, ·, 3]` with the column median `2` while recording no
remediation action whatsoever alongside its output. -/
theorem handle_missing_values_is_silent :
    handle_missing_values_numeric [some 1, none, some 3] =
      [some 1, some 2, some 3] ∧
    handle_missing_values_actions [some 1, none, some 3] = [] := by
  refine ⟨?_, rfl⟩
  norm_num [handle_missing_values_numeric, pandasMedian, List.insertionSort,
    List.orderedInsert]

/-- C4, amended: `Dashboard.py`'s cleaning loop logs a `cleaning_log` entry
whenever it changes a numeric column, but `app.py`'s `handle_missing_values`
substitutes the column median for missing numeric values with no recorded
remediation action. -/
theorem dashboard_logs_app_does_not :
    (∀ (name : String) (aq : Bool) (col : List (Option ℚ)),
        (dashboard_clean_numeric name aq col).1 ≠ col →
        (dashboard_clean_numeric name aq col).2 ≠ []) ∧
    handle_missing_values_numeric [some 1, none, some 3] =
      [some 1, some 2, some 3] ∧
    handle_missing_values_actions [some 1, none, some 3] = [] := by
  refine ⟨?_, ?_, rfl⟩
  · intro name aq col hne
    by_cases h1 : (col.any (·.isNone)) = true
    · unfold dashboard_clean_numeric
      rw [if_pos h1]
      cases aq with
      | true => simp
      | false =>
        cases hm : pandasMedian (col.filterMap id) with
        | some m => simp
        | none => simp
    · unfold dashboard_clean_numeric at hne
      rw [if_neg h1] at hne
      exact absurd rfl hne
  · norm_num [handle_missing_values_numeric, pandasMedian, List.insertionSort,
      List.orderedInsert]

/-- C4 witness: the amended theorem applied to a concrete column with one
missing value, which Dashboard fills and logs. -/
theorem dashboard_logs_app_does_not_witness :
    (dashboard_clean_numeric "humidity" false [some 1, none, some 3]).2 ≠ [] :=
  dashboard_logs_app_does_not.1 "humidity" false [some 1, none, some 3]
    (by norm_num [dashboard_clean_numeric, pandasMedian, List.insertionSort,
      List.orderedInsert]; simp)

/-- C5: on temperatures `[10, 20, 30, 40, 100]` the 80th-percentile threshold
computed by linear interpolation is `52`, and the `>=`-inclusive upper-tail
rule of `get_extreme_type` flags exactly the single record with value `100`
as `"Heatwave"`. -/
theorem heatwave_at_80th_percentile :
    pandasQuantile (4 / 5) [10, 20, 30, 40, 100] = 52 ∧
    ([10, 20, 30, 40, 100] : List ℚ).filter
        (fun t => (get_extreme_type_temperature (4 / 5) (1 / 5)
          [10, 20, 30, 40, 100] t).contains "Heatwave") = [100] := by
  have hq : pandasQuantile (4 / 5) [10, 20, 30, 40, 100] = 52 := by
    norm_num [pandasQuantile, List.insertionSort, List.orderedInsert,
      Rat.floor_def']
    simp
    norm_num
  have hl : pandasQuantile (1 / 5) [10, 20, 30, 40, 100] = 18 := by
    norm_num [pandasQuantile, List.insertionSort, List.orderedInsert,
      Rat.floor_def']
  refine ⟨hq, ?_⟩
  simp only [get_extreme_type_temperature, hq, hl]
  norm_num [List.filter]
  simp

/-- C6: the season map sends `{12,1,2}` to Winter, `{3,4,5}` to Spring,
`{6,7,8}` to Summer and `{9,10,11}` to Autumn, and seasonally aggregating the
two January/February records for country `X` with temperatures `10` and `30`
yields exactly one Winter bucket with mean `20` and sample count `2`. -/
theorem seasonal_winter_bucket :
    (season_map 12 = some "Winter" ∧ season_map 1 = some "Winter" ∧
      season_map 2 = some "Winter") ∧
    (season_map 3 = some "Spring" ∧ season_map 4 = some "Spring" ∧
      season_map 5 = some "Spring") ∧
    (season_map 6 = some "Summer" ∧ season_map 7 = some "Summer" ∧
      season_map 8 = some "Summer") ∧
    (season_map 9 = some "Autumn" ∧ season_map 10 = some "Autumn" ∧
      season_map 11 = some "Autumn") ∧
    seasonalAggregate [⟨"X", 2024, 1, 10⟩, ⟨"X", 2024, 2, 30⟩] =
      [("X", 2024, some "Winter", 20, 2)] := by
  refine ⟨⟨rfl, rfl, rfl⟩, ⟨rfl, rfl, rfl⟩, ⟨rfl, rfl, rfl⟩, ⟨rfl, rfl, rfl⟩, ?_⟩
  norm_num [seasonalAggregate, season_map, List.dedup_cons_of_mem, List.filter]

theorem foldl_min_le_init (l : List ℚ) (x : ℚ) : l.foldl min x ≤ x := by
  induction l generalizing x with
  | nil => exact le_refl x
  | cons y l ih =>
    exact le_trans (ih (min x y)) (min_le_left x y)

theorem init_le_foldl_max (l : List ℚ) (x : ℚ) : x ≤ l.foldl max x := by
  induction l generalizing x with
  | nil => exact le_refl x
  | cons y l ih =>
    exact le_trans (le_max_left x y) (ih (max x y))

theorem minQ_le_maxQ (xs : List ℚ) (h : xs ≠ []) : minQ xs ≤ maxQ xs := by
  cases xs with
  | nil => exact absurd rfl h
  | cons x l =>
    exact le_trans (foldl_min_le_init l x) (init_le_foldl_max l x)

/-- C7: when the data's standard deviation is zero or the Silverman bandwidth
is not positive — the guard `bandwidth <= 0 or np.std(data) == 0` — the KDE
call on a nonempty grid returns the uniform density
`1 / (x.max() - x.min() + 1e-10)` at every grid point, whose denominator is
strictly positive; the result does not depend on the kernel `expK` or on
`sqrt(2π)`, so the normalising division of the non-degenerate branch is never
executed. -/
theorem kde_degenerate_uniform (sq : ℚ → ℚ) (npow sqrt2pi : ℚ) (expK : ℚ → ℚ)
    (data xs : List ℚ) (hdata : data ≠ []) (hxs : xs ≠ [])
    (hdeg : kdeBandwidth sq npow data ≤ 0 ∨ sq (varianceQ data) = 0) :
    kdeEval sq npow sqrt2pi expK data xs =
      xs.map (fun _ => 1 / (maxQ xs - minQ xs + 1 / 10000000000)) ∧
    0 < maxQ xs - minQ xs + (1 : ℚ) / 10000000000 := by
  constructor
  · have h1 : ¬(xs.isEmpty = true) := by simpa using hxs
    have h2 : ¬(data.isEmpty = true) := by simpa using hdata
    unfold kdeEval
    rw [if_neg h1, if_neg h2, if_pos hdeg]
  · have hmm : minQ xs ≤ maxQ xs := minQ_le_maxQ xs hxs
    have : (0 : ℚ) < 1 / 10000000000 := by norm_num
    linarith

/-- C7 witness: the theorem applied to the constant sample `[5, 5, 5]` (zero
variance) and the grid `[0, 1]`. -/
theorem kde_degenerate_uniform_witness :
    kdeEval id 1 1 id [5, 5, 5] [0, 1] =
      ([0, 1] : List ℚ).map
        (fun _ => 1 / (maxQ [0, 1] - minQ [0, 1] + 1 / 10000000000)) ∧
    0 < maxQ [0, 1] - minQ [0, 1] + (1 : ℚ) / 10000000000 :=
  kde_degenerate_uniform id 1 1 id [5, 5, 5] [0, 1] (by simp) (by simp)
    (Or.inr (by norm_num [varianceQ]))

theorem drop_duplicates_keep_last_sublist (l : List SRecord) :
    List.Sublist (drop_duplicates_keep_last l) l := by
  induction l with
  | nil => exact List.Sublist.refl []
  | cons x xs ih =>
    unfold drop_duplicates_keep_last
    split
    · exact ih.cons x
    · exact ih.cons₂ x

theorem drop_duplicates_keep_last_key_nodup (l : List SRecord) :
    (drop_duplicates_keep_last l).Pairwise (fun a b => sKey a ≠ sKey b) := by
  induction l with
  | nil => exact List.Pairwise.nil
  | cons x xs ih =>
    unfold drop_duplicates_keep_last
    split
    · exact ih
    · rename_i hany
      refine List.Pairwise.cons ?_ ih
      intro y hy heq
      apply hany
      rw [List.any_eq_true]
      exact ⟨y, (drop_duplicates_keep_last_sublist xs).subset hy, by simp [heq]⟩

/-- C9: after sorting by `(location_name, last_updated)` and dropping
duplicates on that key with `keep='last'`, the output has pairwise-distinct
keys — at most one record per `(location, timestamp)` pair — and is a
sublist of the sorted input (each key's last occurrence is what remains). -/
theorem clean_dataset_dedup_unique_keys (l : List SRecord) :
    (clean_dataset_dedup l).Pairwise (fun a b => sKey a ≠ sKey b) ∧
    List.Sublist (clean_dataset_dedup l) (List.insertionSort sKeyLe l) :=
  ⟨drop_duplicates_keep_last_key_nodup _, drop_duplicates_keep_last_sublist _⟩

/-- C10: every record in the output of `impute_stationwise` has non-null
temperature and humidity: the interpolation fills what it can and the final
`dropna` removes every record still missing either metric. -/
theorem impute_stationwise_output_nonnull (df : List PRecord) (r : PRecord)
    (hr : r ∈ impute_stationwise df) :
    r.temperature.isSome ∧ r.humidity.isSome := by
  unfold impute_stationwise at hr
  have h := List.of_mem_filter hr
  simpa [Bool.and_eq_true] using h

/-- C10 witness: the theorem applied to a concrete single-record frame. -/
theorem impute_stationwise_output_nonnull_witness :
    (⟨"A", 0, some 10, some 50⟩ : PRecord).temperature.isSome ∧
    (⟨"A", 0, some 10, some 50⟩ : PRecord).humidity.isSome :=
  impute_stationwise_output_nonnull [⟨"A", 0, some 10, some 50⟩]
    ⟨"A", 0, some 10, some 50⟩ (by decide)

/-! Helper lemmas for the idempotence of the derived-metric computations. -/

theorem maRow_country (l : List NRow) (i : ℕ) :
    (maRow l i).country = (l.getD i default).country := rfl

theorem maRow_last_updated (l : List NRow) (i : ℕ) :
    (maRow l i).last_updated = (l.getD i default).last_updated := rfl

theorem maRow_temperature (l : List NRow) (i : ℕ) :
    (maRow l i).temperature_celsius = (l.getD i default).temperature_celsius := rfl

theorem maRow_humidity (l : List NRow) (i : ℕ) :
    (maRow l i).humidity = (l.getD i default).humidity := rfl

theorem maRow_wind_kph (l : List NRow) (i : ℕ) :
    (maRow l i).wind_kph = (l.getD i default).wind_kph := rfl

theorem maRow_heat_index (l : List NRow) (i : ℕ) :
    (maRow l i).heat_index = (l.getD i default).heat_index := rfl

theorem maRow_wind_chill (l : List NRow) (i : ℕ) :
    (maRow l i).wind_chill = (l.getD i default).wind_chill := rfl

theorem length_assignMA (l : List NRow) : (assignMA l).length = l.length := by
  simp [assignMA]

theorem assignMA_get (l : List NRow) (i : ℕ) (h : i < (assignMA l).length) :
    (assignMA l).get ⟨i, h⟩ = maRow l i := by
  simp [assignMA]

theorem assignMA_getD (l : List NRow) (i : ℕ) (h : i < l.length) :
    (assignMA l).getD i default = maRow l i := by
  have h2 : i < (assignMA l).length := by rw [length_assignMA]; exact h
  rw [List.getD_eq_getElem _ _ h2]
  simp [assignMA]

/-- Fields of a row that the rolling-average pass never alters. -/
def baseEq (a b : NRow) : Prop :=
  a.country = b.country ∧ a.temperature_celsius = b.temperature_celsius

theorem forall2_baseEq_assignMA (l : List NRow) :
    List.Forall₂ baseEq (assignMA l) l := by
  rw [List.forall₂_iff_get]
  refine ⟨length_assignMA l, ?_⟩
  intro i h1 h2
  rw [assignMA_get]
  have hd : l.getD i default = l.get ⟨i, h2⟩ := List.getD_eq_getElem l default h2
  exact ⟨by rw [maRow_country, hd], by rw [maRow_temperature, hd]⟩

theorem forall2_filter_map_temp (c : String) :
    ∀ {l1 l2 : List NRow}, List.Forall₂ baseEq l1 l2 →
      (l1.filter (fun s => s.country == c)).map (·.temperature_celsius) =
        (l2.filter (fun s => s.country == c)).map (·.temperature_celsius) := by
  intro l1 l2 h
  induction h with
  | nil => rfl
  | @cons a b l3 l4 hR htl ih =>
    obtain ⟨hc, ht⟩ := hR
    simp only [List.filter_cons, hc]
    by_cases hb : (b.country == c) = true
    · rw [if_pos hb, if_pos hb]
      simp only [List.map_cons, ht, ih]
    · rw [if_neg hb, if_neg hb]
      exact ih

theorem maWindow_assignMA (l : List NRow) (i : ℕ) (h : i < l.length) :
    maWindow (assignMA l) i = maWindow l i := by
  simp only [maWindow]
  rw [assignMA_getD l i h, maRow_country]
  have hf : List.Forall₂ baseEq ((assignMA l).take (i + 1)) (l.take (i + 1)) :=
    List.forall₂_take (i + 1) (forall2_baseEq_assignMA l)
  rw [forall2_filter_map_temp (l.getD i default).country hf]

theorem maRow_assignMA (l : List NRow) (i : ℕ) (h : i < l.length) :
    maRow (assignMA l) i = maRow l i := by
  simp only [maRow]
  rw [assignMA_getD l i h, maWindow_assignMA l i h]
  simp only [maRow_country, maRow_last_updated, maRow_temperature, maRow_humidity,
    maRow_wind_kph, maRow_heat_index, maRow_wind_chill]

theorem assignMA_idem (l : List NRow) : assignMA (assignMA l) = assignMA l := by
  apply List.ext_get
  · rw [length_assignMA, length_assignMA]
  · intro i h1 h2
    have hi : i < l.length := by
      rw [length_assignMA, length_assignMA] at h1; exact h1
    rw [assignMA_get, assignMA_get, maRow_assignMA l i hi]

theorem sorted_assignMA (l : List NRow) (h : List.Sorted nKeyLe l) :
    List.Sorted nKeyLe (assignMA l) := by
  rw [List.Sorted, List.pairwise_iff_get] at h ⊢
  intro i j hij
  rw [assignMA_get, assignMA_get]
  have he := length_assignMA l
  have hi : (i : ℕ) < l.length := by have := i.isLt; omega
  have hj : (j : ℕ) < l.length := by have := j.isLt; omega
  have hkey := h ⟨i, hi⟩ ⟨j, hj⟩ (Fin.mk_lt_mk.mpr (Fin.lt_def.mp hij))
  unfold nKeyLe at hkey ⊢
  rw [maRow_country, maRow_country, maRow_last_updated, maRow_last_updated,
    List.getD_eq_getElem l default hi, List.getD_eq_getElem l default hj]
  simpa [List.get_eq_getElem] using hkey

theorem list_map_id_of_mem {α : Type} {f : α → α} :
    ∀ {l : List α}, (∀ a ∈ l, f a = a) → l.map f = l := by
  intro l h
  induction l with
  | nil => rfl
  | cons x xs ih =>
    rw [List.map_cons, h x (by simp), ih (fun a ha => h a (by simp [ha]))]

theorem newEnrich_eq_self {r : NRow}
    (h1 : r.heat_index = some (r.temperature_celsius + 0.1 * r.humidity))
    (h2 : r.wind_chill = some (r.temperature_celsius - 0.1 * r.wind_kph)) :
    newEnrich r = r := by
  obtain ⟨c, t, temp, hum, wk, hi, wc, ma⟩ := r
  simp only [newEnrich] at h1 h2 ⊢
  rw [h1, h2]

theorem newDerive_enrich_inv (df : List NRow) :
    ∀ r ∈ newDerive df,
      r.heat_index = some (r.temperature_celsius + 0.1 * r.humidity) ∧
      r.wind_chill = some (r.temperature_celsius - 0.1 * r.wind_kph) := by
  intro r hr
  unfold newDerive at hr
  rw [assignMA, List.mem_map] at hr
  obtain ⟨i, hi, heq⟩ := hr
  rw [List.mem_range] at hi
  subst heq
  set s := List.insertionSort nKeyLe (df.map newEnrich) with hs
  have hmem : s.getD i default ∈ s := by
    rw [List.getD_eq_getElem s default hi]
    exact List.getElem_mem hi
  have hmem2 : s.getD i default ∈ df.map newEnrich :=
    ((List.perm_insertionSort nKeyLe (df.map newEnrich)).mem_iff).1 hmem
  rw [List.mem_map] at hmem2
  obtain ⟨y, _, hy⟩ := hmem2
  rw [maRow_heat_index, maRow_wind_chill, maRow_temperature, maRow_humidity,
    maRow_wind_kph, ← hy]
  exact ⟨rfl, rfl⟩

/-- C8: the derived-metric computations are idempotent on already-enriched
input: `add_derived_metrics` (`src/app.py`) recomputes heat index and wind
chill from the base columns only, and the derived block of `new.py`
(`heat_index`, `wind_chill`, sort, per-country 7-day rolling mean) reproduces
exactly the same rows when re-applied to its own output. -/
theorem derived_metrics_idempotent :
    (∀ (pow016 : ℚ → ℚ) (df : List ARow),
        add_derived_metrics pow016 (add_derived_metrics pow016 df) =
          add_derived_metrics pow016 df) ∧
    (∀ df : List NRow, newDerive (newDerive df) = newDerive df) := by
  constructor
  · intro pow016 df
    unfold add_derived_metrics
    rw [List.map_map]
    congr 1
  · intro df
    have hmap : (newDerive df).map newEnrich = newDerive df :=
      list_map_id_of_mem (fun r hr =>
        newEnrich_eq_self (newDerive_enrich_inv df r hr).1
          (newDerive_enrich_inv df r hr).2)
    have hsorted : List.Sorted nKeyLe (newDerive df) := by
      unfold newDerive
      exact sorted_assignMA _
        (List.sorted_insertionSort nKeyLe (df.map newEnrich))
    show assignMA (List.insertionSort nKeyLe ((newDerive df).map newEnrich)) =
      newDerive df
    rw [hmap, List.Sorted.insertionSort_eq hsorted]
    show assignMA (assignMA (List.insertionSort nKeyLe (df.map newEnrich))) =
      assignMA (List.insertionSort nKeyLe (df.map newEnrich))
    exact assignMA_idem _

end ClimateScope
